import Mathlib

/-!
# Verification of the neurodlb video bot core

Shallow embedding, in Lean 4, of the pure/control-flow core of the
`neurodlb` Telegram video bot (Python sources under `src/`), together with
theorems settling the frozen specification claims.

Conventions of the embedding:
* Python `Optional[T]` becomes `Option T`; a function that can only raise
  `ValueError` internally and catches it becomes a total function into
  `Option`.
* Python `int` becomes `Int` (arbitrary precision, as in Python);
  file sizes are `Nat`.
* Wall-clock times (`datetime.now()`) are passed explicitly as integer
  seconds.
* External effects (yt-dlp, ffmpeg, the Mistral API, Telegram sends) are
  modelled by explicit outcome parameters: the embedded function receives
  the outcome the external call would have produced and mirrors the
  source's control flow on it.
* Regular expressions from the source are hand-compiled to deterministic
  matchers over `List Char`.  For every pattern in the source the required
  character after a greedy `\d+` / `\s+` / optional `(?::\d+)?` group is
  outside the repeated character class, so greedy deterministic matching
  coincides with Python's backtracking leftmost-match semantics; this is
  noted at each matcher.
-/

namespace Neurodlb

/-! ## Python primitive models -/

/-- Value of a list of decimal digit characters, most significant first
(`int` on a digit string). -/
def digitsVal (cs : List Char) : Nat :=
  cs.foldl (fun a c => a * 10 + (c.toNat - 48)) 0

/-- A nonempty all-digit character list parsed as a decimal `Nat`;
`none` otherwise. -/
def decDigits (cs : List Char) : Option Nat :=
  if cs ≠ [] ∧ cs.all Char.isDigit then some (digitsVal cs) else none

/-- Strip leading and trailing whitespace, as Python `int()` does before
reading the numeral. -/
def stripWs (cs : List Char) : List Char :=
  ((cs.dropWhile Char.isWhitespace).reverse.dropWhile Char.isWhitespace).reverse

/-- Model of Python `int(s)` on a string: optional surrounding whitespace,
an optional single `+`/`-` sign, then a nonempty run of ASCII decimal
digits; anything else raises `ValueError`, modelled as `none`.  (The
digit-grouping underscore and non-ASCII numerals accepted by CPython do
not occur in this program's inputs and are modelled as invalid.) -/
def pyInt (cs : List Char) : Option Int :=
  match stripWs cs with
  | [] => none
  | c :: r =>
    if c = '+' then (decDigits r).map (fun n => (n : Int))
    else if c = '-' then (decDigits r).map (fun n => -(n : Int))
    else (decDigits (c :: r)).map (fun n => (n : Int))

/-- Model of Python `s.split(":")`: split at every colon, keeping empty
pieces, so the result is always nonempty. -/
def splitColon : List Char → List (List Char)
  | [] => [[]]
  | c :: cs =>
    if c = ':' then [] :: splitColon cs
    else
      match splitColon cs with
      | [] => [[c]]
      | p :: ps => (c :: p) :: ps

/-! ## `_parse_time_string` (src/video_processor.py:721-743; the identical
copy `parse_time_string` lives in src/utils.py:71-93) -/

/-- Embedding of `_parse_time_string` on the character list of its input:
a colon-bearing string is split on `:` and read as `m:s` (2 parts) or
`h:m:s` (3 parts); any other number of parts falls off the end of the
Python function, returning `None`; a colon-free string is `int()`-parsed
directly.  A `ValueError` from any `int()` is caught and yields `None`. -/
def parse_time_string_list (cs : List Char) : Option Int :=
  if cs.contains ':' then
    match splitColon cs with
    | [m, s] => do
      let mv ← pyInt m
      let sv ← pyInt s
      pure (mv * 60 + sv)
    | [h, m, s] => do
      let hv ← pyInt h
      let mv ← pyInt m
      let sv ← pyInt s
      pure (hv * 3600 + mv * 60 + sv)
    | _ => none
  else
    pyInt cs

/-- `VideoProcessor._parse_time_string` (= `utils.parse_time_string`):
parse `"1:30"`-style or bare-integer time strings into seconds. -/
def parse_time_string (s : String) : Option Int :=
  parse_time_string_list s.toList

example : parse_time_string "1:30" = some 90 := by decide
example : parse_time_string "90" = some 90 := by decide
example : parse_time_string "1:2:3" = some 3723 := by decide
example : parse_time_string "1:2:3:4" = none := by decide
example : parse_time_string "1:x" = none := by decide
example : parse_time_string "" = none := by decide

/-! ## `parse_time_request` (src/video_processor.py:662-719)

The five Russian time-range regexes are hand-compiled.  In every pattern a
captured token `\d+(?::\d+)?` (or `\d+:\d+`) is followed by `\s`, `-`, or
the end of the consumed region, never by a digit or a colon, and every
`\s+` is followed by `п`/`д` or a digit, never by whitespace, so the
greedy deterministic matchers below agree with `re.search`. -/

/-- Python `str.lower()` restricted to the alphabets this program's
patterns and keywords use: ASCII letters and Russian Cyrillic
(`А`-`Я` U+0410-U+042F lowers by +0x20, `Ё` U+0401 to `ё` U+0451). -/
def pyLowerChar (c : Char) : Char :=
  if 'A' ≤ c ∧ c ≤ 'Z' then Char.ofNat (c.toNat + 32)
  else if 'А' ≤ c ∧ c ≤ 'Я' then Char.ofNat (c.toNat + 0x20)
  else if c = 'Ё' then 'ё'
  else c

/-- Consume an exact literal prefix. -/
def eatLit : List Char → List Char → Option (List Char)
  | [], cs => some cs
  | _ :: _, [] => none
  | l :: ls, c :: cs => if c = l then eatLit ls cs else none

/-- Consume `\s+`: at least one whitespace character, greedily. -/
def eatWs1 (cs : List Char) : Option (List Char) :=
  match cs.span Char.isWhitespace with
  | ([], _) => none
  | (_ :: _, r) => some r

/-- Match the capture group `(\d+(?::\d+)?)` at the current position,
returning the captured characters and the rest (`takeWhile`/`dropWhile`
is `span`).  The optional `:\d+` part is taken greedily. -/
def matchTok (cs : List Char) : Option (List Char × List Char) :=
  let d1 := cs.takeWhile Char.isDigit
  let r1 := cs.dropWhile Char.isDigit
  if d1 = [] then none
  else if r1.head? = some ':' then
    let d2 := r1.tail.takeWhile Char.isDigit
    let r3 := r1.tail.dropWhile Char.isDigit
    if d2 = [] then some (d1, r1) else some (d1 ++ ':' :: d2, r3)
  else some (d1, r1)

/-- Match the capture group `(\d+:\d+)` (colon mandatory, patterns 4-5). -/
def matchTokC (cs : List Char) : Option (List Char × List Char) :=
  let d1 := cs.takeWhile Char.isDigit
  let r1 := cs.dropWhile Char.isDigit
  if d1 = [] then none
  else if r1.head? = some ':' then
    let d2 := r1.tail.takeWhile Char.isDigit
    let r3 := r1.tail.dropWhile Char.isDigit
    if d2 = [] then none else some (d1 ++ ':' :: d2, r3)
  else none

/-- Match, at the current position, a range pattern of the shape
`lead\s+(tok)\s+(?:mid₁|mid₂|…)\s+(tok)` and return the two captures.
Instantiated for patterns 1, 2, 4 and 5 of `parse_time_request`. -/
def matchRange (lead : List Char) (mids : List (List Char))
    (tok : List Char → Option (List Char × List Char))
    (cs : List Char) : Option (List Char × List Char) := do
  let r1 ← eatLit lead cs
  let r2 ← eatWs1 r1
  let (t1, r3) ← tok r2
  let r4 ← eatWs1 r3
  let r5 ← mids.firstM (fun m => eatLit m r4)
  let r6 ← eatWs1 r5
  let (t2, _) ← tok r6
  pure (t1, t2)

/-- Match, at the current position, pattern 3 `(tok)-(tok)`. -/
def matchDash (tok : List Char → Option (List Char × List Char))
    (cs : List Char) : Option (List Char × List Char) := do
  let (t1, r1) ← tok cs
  let r2 ← eatLit ['-'] r1
  let (t2, _) ← tok r2
  pure (t1, t2)

/-- `re.search`: try the at-position matcher at every suffix, left to
right, returning the first success. -/
def searchP (m : List Char → Option α) : List Char → Option α
  | [] => m []
  | c :: cs => (m (c :: cs)).orElse (fun _ => searchP m cs)

/-- One iteration of the pattern loop of `parse_time_request`: search for
the pattern; on a match, sub-parse both captures and return the pair when
both parse.  When a capture fails to parse, the source falls through to
the next pattern (here: `none`, chained with `<|>` by the caller). -/
def tryPattern (p : List Char → Option (List Char × List Char))
    (cs : List Char) : Option (Int × Int) :=
  match searchP p cs with
  | some (a, b) =>
    match parse_time_string_list a, parse_time_string_list b with
    | some s, some e => some (s, e)
    | _, _ => none
  | none => none

/-- Pattern 1: `с\s+(\d+(?::\d+)?)\s+(?:по|до)\s+(\d+(?::\d+)?)`. -/
def pat1 : List Char → Option (List Char × List Char) :=
  matchRange "с".toList ["по".toList, "до".toList] matchTok

/-- Pattern 2: `от\s+(\d+(?::\d+)?)\s+до\s+(\d+(?::\d+)?)`. -/
def pat2 : List Char → Option (List Char × List Char) :=
  matchRange "от".toList ["до".toList] matchTok

/-- Pattern 3: `(\d+(?::\d+)?)-(\d+(?::\d+)?)`. -/
def pat3 : List Char → Option (List Char × List Char) :=
  matchDash matchTok

/-- Pattern 4: `с\s+(\d+:\d+)\s+(?:по|до)\s+(\d+:\d+)`. -/
def pat4 : List Char → Option (List Char × List Char) :=
  matchRange "с".toList ["по".toList, "до".toList] matchTokC

/-- Pattern 5: `от\s+(\d+:\d+)\s+до\s+(\d+:\d+)`. -/
def pat5 : List Char → Option (List Char × List Char) :=
  matchRange "от".toList ["до".toList] matchTokC

/-- `VideoProcessor.parse_time_request`: lower-case the text, try the
five patterns in order, and return the first successfully sub-parsed
`(start, end)` pair.  The `video_duration` argument only triggers a log
warning in the source (`# Allow it anyway`) and never changes the
result; it is kept for signature fidelity. -/
def parse_time_request (text : String) (video_duration : Option Int) :
    Option (Int × Int) :=
  let lcs := text.toList.map pyLowerChar
  let _ := video_duration
  (tryPattern pat1 lcs).orElse fun _ =>
  (tryPattern pat2 lcs).orElse fun _ =>
  (tryPattern pat3 lcs).orElse fun _ =>
  (tryPattern pat4 lcs).orElse fun _ =>
  tryPattern pat5 lcs

example : parse_time_request "с 10 по 20 секунду" none = some (10, 20) := by decide
example : parse_time_request "от 1:30 до 2:45" none = some (90, 165) := by decide
example : parse_time_request "видео 10-20 секунд" none = some (10, 20) := by decide
example : parse_time_request "Обрежь С 5 ДО 15" none = some (5, 15) := by decide
example : parse_time_request "привет" none = none := by decide
example : parse_time_request "с 20 по 10" none = some (20, 10) := by decide
example : parse_time_request "с 7 по 7" none = some (7, 7) := by decide

/-! ## Support lemmas for the time parser -/

/-- A decimal digit character is not whitespace. -/
lemma digit_not_ws {c : Char} (h : c.isDigit = true) : c.isWhitespace = false := by
  simp only [Char.isDigit, Bool.and_eq_true, decide_eq_true_eq] at h
  obtain ⟨h1, _⟩ := h
  by_contra hw
  rw [Bool.not_eq_false] at hw
  simp only [Char.isWhitespace, Bool.or_eq_true, decide_eq_true_eq] at hw
  rcases hw with ((rfl | rfl) | rfl) | rfl <;> exact absurd h1 (by decide)

/-- A decimal digit character is not a colon. -/
lemma digit_ne_colon {c : Char} (h : c.isDigit = true) : c ≠ ':' := by
  rintro rfl; exact absurd h (by decide)

/-- Dropping leading whitespace from an all-digit list is the identity. -/
lemma dropWhile_ws_of_digits {cs : List Char} (h : cs.all Char.isDigit = true) :
    cs.dropWhile Char.isWhitespace = cs := by
  cases cs with
  | nil => rfl
  | cons c t =>
    simp only [List.all_cons, Bool.and_eq_true] at h
    simp [List.dropWhile_cons, digit_not_ws h.1]

/-- `stripWs` is the identity on all-digit lists. -/
lemma stripWs_of_digits {cs : List Char} (h : cs.all Char.isDigit = true) :
    stripWs cs = cs := by
  unfold stripWs
  rw [dropWhile_ws_of_digits h, dropWhile_ws_of_digits, List.reverse_reverse]
  simpa using h

/-- `pyInt` on a nonempty all-digit list returns the digit value, a
nonnegative integer. -/
lemma pyInt_of_digits {cs : List Char} (hne : cs ≠ [])
    (h : cs.all Char.isDigit = true) :
    pyInt cs = some ((digitsVal cs : Nat) : Int) := by
  unfold pyInt
  rw [stripWs_of_digits h]
  cases cs with
  | nil => exact absurd rfl hne
  | cons c t =>
    simp only [List.all_cons, Bool.and_eq_true] at h
    have hp : c ≠ '+' := by rintro rfl; exact absurd h.1 (by decide)
    have hm : c ≠ '-' := by rintro rfl; exact absurd h.1 (by decide)
    simp only [hp, hm, if_false, decDigits]
    rw [if_pos ⟨by simp, by simp [List.all_cons, h.1, h.2]⟩]
    rfl

/-- The result of `pyInt` on a nonempty all-digit list is nonnegative. -/
lemma pyInt_of_digits_nonneg {cs : List Char} (hne : cs ≠ [])
    (h : cs.all Char.isDigit = true) :
    ∃ n : Int, pyInt cs = some n ∧ 0 ≤ n := by
  exact ⟨_, pyInt_of_digits hne h, Int.natCast_nonneg _⟩

/-- `splitColon` of a colon-free list is the one-piece split. -/
lemma splitColon_no_colon {cs : List Char} (h : ∀ c ∈ cs, c ≠ ':') :
    splitColon cs = [cs] := by
  induction cs with
  | nil => rfl
  | cons c t ih =>
    have hc : c ≠ ':' := h c (by simp)
    have ht := ih (fun x hx => h x (by simp [hx]))
    simp [splitColon, hc, ht]

/-- `splitColon` peels a colon-free prefix before a colon. -/
lemma splitColon_prefix {d1 rest : List Char} (h : ∀ c ∈ d1, c ≠ ':') :
    splitColon (d1 ++ ':' :: rest) = d1 :: splitColon rest := by
  induction d1 with
  | nil => simp [splitColon]
  | cons c t ih =>
    have hc : c ≠ ':' := h c (by simp)
    have ht := ih (fun x hx => h x (by simp [hx]))
    simp [splitColon, hc, ht]

/-- Shape of a token captured by `(\d+(?::\d+)?)` / `(\d+:\d+)`:
a nonempty digit run, optionally a colon and a second nonempty digit
run. -/
def TokShape (t : List Char) : Prop :=
  (t ≠ [] ∧ t.all Char.isDigit = true) ∨
  ∃ d1 d2, t = d1 ++ ':' :: d2 ∧ d1 ≠ [] ∧ d2 ≠ [] ∧
    d1.all Char.isDigit = true ∧ d2.all Char.isDigit = true

/-- All characters of a `takeWhile Char.isDigit` result are digits. -/
lemma all_digit_takeWhile (cs : List Char) :
    (cs.takeWhile Char.isDigit).all Char.isDigit = true :=
  List.all_eq_true.2 fun _ hx => List.mem_takeWhile_imp hx

/-- Every capture of `matchTok` has the token shape. -/
lemma matchTok_shape {cs t r : List Char} (h : matchTok cs = some (t, r)) :
    TokShape t := by
  unfold matchTok at h
  simp only at h
  by_cases h1 : cs.takeWhile Char.isDigit = []
  · simp [h1] at h
  · rw [if_neg h1] at h
    by_cases h2 : (cs.dropWhile Char.isDigit).head? = some ':'
    · rw [if_pos h2] at h
      by_cases h3 : (cs.dropWhile Char.isDigit).tail.takeWhile Char.isDigit = []
      · rw [if_pos h3] at h
        simp only [Option.some.injEq, Prod.mk.injEq] at h
        exact Or.inl ⟨h.1 ▸ h1, h.1 ▸ all_digit_takeWhile cs⟩
      · rw [if_neg h3] at h
        simp only [Option.some.injEq, Prod.mk.injEq] at h
        exact Or.inr ⟨_, _, h.1.symm, h1, h3,
          all_digit_takeWhile cs, all_digit_takeWhile _⟩
    · rw [if_neg h2] at h
      simp only [Option.some.injEq, Prod.mk.injEq] at h
      exact Or.inl ⟨h.1 ▸ h1, h.1 ▸ all_digit_takeWhile cs⟩

/-- Every capture of `matchTokC` has the token shape. -/
lemma matchTokC_shape {cs t r : List Char} (h : matchTokC cs = some (t, r)) :
    TokShape t := by
  unfold matchTokC at h
  simp only at h
  by_cases h1 : cs.takeWhile Char.isDigit = []
  · simp [h1] at h
  · rw [if_neg h1] at h
    by_cases h2 : (cs.dropWhile Char.isDigit).head? = some ':'
    · rw [if_pos h2] at h
      by_cases h3 : (cs.dropWhile Char.isDigit).tail.takeWhile Char.isDigit = []
      · simp [h3] at h
      · rw [if_neg h3] at h
        simp only [Option.some.injEq, Prod.mk.injEq] at h
        exact Or.inr ⟨_, _, h.1.symm, h1, h3,
          all_digit_takeWhile cs, all_digit_takeWhile _⟩
    · simp [h2] at h

/-- A token of `TokShape` sub-parses to a nonnegative number of seconds. -/
lemma parse_time_string_list_of_shape {t : List Char} (h : TokShape t) :
    ∃ n : Int, parse_time_string_list t = some n ∧ 0 ≤ n := by
  rcases h with ⟨hne, hall⟩ | ⟨d1, d2, rfl, h1ne, h2ne, h1all, h2all⟩
  · have hnc : t.contains ':' = false := by
      rw [List.contains_eq_any_beq, Bool.eq_false_iff]
      intro hany
      rw [List.any_eq_true] at hany
      obtain ⟨x, hx, hbeq⟩ := hany
      exact digit_ne_colon (List.all_eq_true.1 hall x hx) (eq_of_beq hbeq).symm
    unfold parse_time_string_list
    rw [hnc]
    simp only [Bool.false_eq_true, if_false]
    exact pyInt_of_digits_nonneg hne hall
  · have hc : (d1 ++ ':' :: d2).contains ':' = true := by
      simp [List.contains_eq_any_beq, List.any_append]
    have hd1c : ∀ c ∈ d1, c ≠ ':' :=
      fun c hc => digit_ne_colon (List.all_eq_true.1 h1all c hc)
    have hd2c : ∀ c ∈ d2, c ≠ ':' :=
      fun c hc => digit_ne_colon (List.all_eq_true.1 h2all c hc)
    unfold parse_time_string_list
    rw [hc, if_pos rfl, splitColon_prefix hd1c, splitColon_no_colon hd2c]
    obtain ⟨m, hm, hm0⟩ := pyInt_of_digits_nonneg h1ne h1all
    obtain ⟨s, hs, hs0⟩ := pyInt_of_digits_nonneg h2ne h2all
    exact ⟨m * 60 + s, by simp [hm, hs], by positivity⟩

/-- Captures of a `matchRange` pattern inherit the token matcher's
shape. -/
lemma matchRange_shape {lead : List Char} {mids : List (List Char)}
    {tok : List Char → Option (List Char × List Char)}
    (htok : ∀ {cs t r}, tok cs = some (t, r) → TokShape t)
    {cs t1 t2 : List Char}
    (h : matchRange lead mids tok cs = some (t1, t2)) :
    TokShape t1 ∧ TokShape t2 := by
  simp only [matchRange, bind, Option.bind_eq_some, Option.pure_def,
    Option.some.injEq] at h
  obtain ⟨r1, _, r2, _, ⟨a, r3⟩, ha, h⟩ := h
  simp only at h
  obtain ⟨r4, _, r5, _, r6, _, ⟨b, r7⟩, hb, h⟩ := h
  simp only [Prod.mk.injEq] at h
  exact ⟨h.1 ▸ htok ha, h.2 ▸ htok hb⟩

/-- Captures of the `matchDash` pattern inherit the token matcher's
shape. -/
lemma matchDash_shape {tok : List Char → Option (List Char × List Char)}
    (htok : ∀ {cs t r}, tok cs = some (t, r) → TokShape t)
    {cs t1 t2 : List Char}
    (h : matchDash tok cs = some (t1, t2)) :
    TokShape t1 ∧ TokShape t2 := by
  simp only [matchDash, bind, Option.bind_eq_some, Option.pure_def,
    Option.some.injEq] at h
  obtain ⟨⟨a, r1⟩, ha, h⟩ := h
  simp only at h
  obtain ⟨r2, _, ⟨b, r3⟩, hb, h⟩ := h
  simp only [Prod.mk.injEq] at h
  exact ⟨h.1 ▸ htok ha, h.2 ▸ htok hb⟩

/-- A successful `re.search` comes from a successful match at some
suffix. -/
lemma searchP_ex {α : Type} {m : List Char → Option α} {cs : List Char}
    {a : α} (h : searchP m cs = some a) : ∃ cs', m cs' = some a := by
  induction cs with
  | nil => exact ⟨[], h⟩
  | cons c t ih =>
    rw [searchP] at h
    rcases ho : m (c :: t) with _ | v
    · rw [ho] at h
      simp only [Option.orElse] at h
      exact ih h
    · rw [ho] at h
      simp only [Option.orElse] at h
      exact ⟨c :: t, ho.trans h⟩

/-- If every capture of a pattern has the token shape, a successful
`tryPattern` yields two nonnegative values. -/
lemma tryPattern_nonneg {p : List Char → Option (List Char × List Char)}
    (hp : ∀ {cs t1 t2}, p cs = some (t1, t2) → TokShape t1 ∧ TokShape t2)
    {cs : List Char} {s e : Int} (h : tryPattern p cs = some (s, e)) :
    0 ≤ s ∧ 0 ≤ e := by
  unfold tryPattern at h
  rcases hs : searchP p cs with _ | ⟨a, b⟩
  · rw [hs] at h; exact absurd h (by simp)
  · rw [hs] at h
    obtain ⟨cs', hcs'⟩ := searchP_ex hs
    obtain ⟨sha, shb⟩ := hp hcs'
    obtain ⟨na, hna, hna0⟩ := parse_time_string_list_of_shape sha
    obtain ⟨nb, hnb, hnb0⟩ := parse_time_string_list_of_shape shb
    have h' : (match parse_time_string_list a, parse_time_string_list b with
        | some sv, some ev => some (sv, ev)
        | _, _ => none) = some (s, e) := h
    rw [hna, hnb] at h'
    simp only [Option.some.injEq, Prod.mk.injEq] at h'
    exact ⟨h'.1 ▸ hna0, h'.2 ▸ hnb0⟩

lemma pat1_shape {cs t1 t2 : List Char} (h : pat1 cs = some (t1, t2)) :
    TokShape t1 ∧ TokShape t2 := matchRange_shape (fun h => matchTok_shape h) h

lemma pat2_shape {cs t1 t2 : List Char} (h : pat2 cs = some (t1, t2)) :
    TokShape t1 ∧ TokShape t2 := matchRange_shape (fun h => matchTok_shape h) h

lemma pat3_shape {cs t1 t2 : List Char} (h : pat3 cs = some (t1, t2)) :
    TokShape t1 ∧ TokShape t2 := matchDash_shape (fun h => matchTok_shape h) h

lemma pat4_shape {cs t1 t2 : List Char} (h : pat4 cs = some (t1, t2)) :
    TokShape t1 ∧ TokShape t2 := matchRange_shape (fun h => matchTokC_shape h) h

lemma pat5_shape {cs t1 t2 : List Char} (h : pat5 cs = some (t1, t2)) :
    TokShape t1 ∧ TokShape t2 := matchRange_shape (fun h => matchTokC_shape h) h

/-- Any pair returned by `parse_time_request` has both components
nonnegative: every capture is a digit run or `digits:digits`. -/
lemma parse_time_request_nonneg (text : String) (dur : Option Int)
    (s e : Int) (h : parse_time_request text dur = some (s, e)) :
    0 ≤ s ∧ 0 ≤ e := by
  unfold parse_time_request at h
  simp only at h
  set lcs := text.toList.map pyLowerChar with hlcs
  rcases h1 : tryPattern pat1 lcs with _ | v1 <;> rw [h1] at h <;>
    simp only [Option.orElse] at h
  · rcases h2 : tryPattern pat2 lcs with _ | v2 <;> rw [h2] at h <;>
      simp only [Option.orElse] at h
    · rcases h3 : tryPattern pat3 lcs with _ | v3 <;> rw [h3] at h <;>
        simp only [Option.orElse] at h
      · rcases h4 : tryPattern pat4 lcs with _ | v4 <;> rw [h4] at h <;>
          simp only [Option.orElse] at h
        · exact tryPattern_nonneg (fun h => pat5_shape h) h
        · exact tryPattern_nonneg (fun h => pat4_shape h) (h ▸ h4)
      · exact tryPattern_nonneg (fun h => pat3_shape h) (h ▸ h3)
    · exact tryPattern_nonneg (fun h => pat2_shape h) (h ▸ h2)
  · exact tryPattern_nonneg (fun h => pat1_shape h) (h ▸ h1)

/-! ## Claims C1 and C10 -/

/-- C1 (counterexample): the claimed invariant `0 ≤ start < end` fails:
`parse_time_request` performs no ordering check on the parsed pair, so
the input `"с 20 по 10"` yields the reversed range `(20, 10)`. -/
theorem C1_counterexample :
    ¬ (∀ (text : String) (dur : Option Int) (s e : Int),
        parse_time_request text dur = some (s, e) → 0 ≤ s ∧ s < e) := by
  intro hclaim
  have h := (hclaim "с 20 по 10" none 20 10 (by decide)).2
  exact absurd h (by decide)

/-- C1 (amended): every pair returned by `parse_time_request` satisfies
`0 ≤ start` and `0 ≤ end` (each capture is a digit run or
`digits:digits`, so each side sub-parses to a nonnegative number of
seconds), but `start < end` is not enforced. -/
theorem C1_time_range_nonneg (text : String) (dur : Option Int)
    (s e : Int) (h : parse_time_request text dur = some (s, e)) :
    0 ≤ s ∧ 0 ≤ e :=
  parse_time_request_nonneg text dur s e h

/-- Witness for `C1_time_range_nonneg` at a concrete parsed input. -/
theorem C1_time_range_nonneg_witness :
    parse_time_request "от 1:30 до 2:45" none = some (90, 165) ∧
      (0 ≤ (90 : Int) ∧ 0 ≤ (165 : Int)) :=
  ⟨by decide, C1_time_range_nonneg "от 1:30 до 2:45" none 90 165 (by decide)⟩

/-- The components `int()` is applied to by `_parse_time_string`: the
colon-split pieces when a colon is present, the whole string
otherwise. -/
def timeComponents (cs : List Char) : List (List Char) :=
  if cs.contains ':' then splitColon cs else [cs]

/-- C10: `_parse_time_string` is total into `Option Int` (its Lean type;
the Python body catches the only raisable `ValueError`), and returns
`none` whenever the token splits on `:` into a number of components
other than 2 or 3, or any component fails integer parsing. -/
theorem C10_parse_time_string_malformed (s : String)
    (h : (s.toList.contains ':' = true ∧
            (splitColon s.toList).length ≠ 2 ∧
            (splitColon s.toList).length ≠ 3) ∨
         (∃ p ∈ timeComponents s.toList, pyInt p = none)) :
    parse_time_string s = none := by
  unfold parse_time_string parse_time_string_list
  by_cases hc : s.toList.contains ':' = true
  · rw [hc]
    simp only [if_true]
    rcases h with ⟨_, h2, h3⟩ | ⟨p, hp, hnone⟩
    · rcases hP : splitColon s.toList with _ | ⟨a, P⟩
      · rfl
      · rcases P with _ | ⟨b, P⟩
        · rfl
        · rcases P with _ | ⟨c, P⟩
          · exact absurd (by rw [hP]; rfl) h2
          · rcases P with _ | ⟨d, P⟩
            · exact absurd (by rw [hP]; rfl) h3
            · rfl
    · unfold timeComponents at hp
      rw [hc] at hp
      simp only [if_true] at hp
      rcases hP : splitColon s.toList with _ | ⟨a, P⟩
      · rfl
      · rcases P with _ | ⟨b, P⟩
        · rfl
        · rcases P with _ | ⟨c, P⟩
          · rw [hP] at hp
            simp only [List.mem_cons, List.not_mem_nil, or_false] at hp
            rcases hp with rfl | rfl
            · simp [hnone]
            · cases ha : pyInt a <;> simp [ha, hnone]
          · rcases P with _ | ⟨d, P⟩
            · rw [hP] at hp
              simp only [List.mem_cons, List.not_mem_nil, or_false] at hp
              rcases hp with rfl | rfl | rfl
              · simp [hnone]
              · cases ha : pyInt a <;> simp [ha, hnone]
              · cases ha : pyInt a <;> cases hb : pyInt b <;>
                  simp [ha, hb, hnone]
            · rfl
  · rw [Bool.not_eq_true] at hc
    rw [hc]
    simp only [Bool.false_eq_true, if_false]
    rcases h with ⟨h1, _⟩ | ⟨p, hp, hnone⟩
    · exact absurd h1 (by rw [hc]; simp)
    · unfold timeComponents at hp
      rw [hc] at hp
      simp only [Bool.false_eq_true, if_false, List.mem_singleton] at hp
      exact hp ▸ hnone

/-- Witness for `C10_parse_time_string_malformed` at `"1:2:3:4"`. -/
theorem C10_parse_time_string_malformed_witness :
    (("1:2:3:4".toList.contains ':' = true ∧
        (splitColon "1:2:3:4".toList).length ≠ 2 ∧
        (splitColon "1:2:3:4".toList).length ≠ 3) ∨
      (∃ p ∈ timeComponents "1:2:3:4".toList, pyInt p = none)) ∧
    parse_time_string "1:2:3:4" = none :=
  ⟨Or.inl (by refine ⟨by decide, by decide, by decide⟩),
   C10_parse_time_string_malformed "1:2:3:4"
     (Or.inl ⟨by decide, by decide, by decide⟩)⟩

/-! ## User video memory (src/bot.py:88-157)

`datetime.now()` is passed explicitly as integer seconds; the dataclass
`timestamp` holds the creation instant. -/

/-- `UserVideoMemory` dataclass (src/bot.py:88-115). -/
structure UserVideoMemory where
  video_url : String
  video_path : Option String
  file_id : Option String
  title : Option String
  duration : Option Int
  timestamp : Int
  deriving DecidableEq

/-- `UserVideoMemory.is_expired`: strictly older than 1 hour
(`datetime.now() - timestamp > timedelta(hours=1)`). -/
def UserVideoMemory.is_expired (now : Int) (m : UserVideoMemory) : Bool :=
  3600 < now - m.timestamp

/-- The `VideoMemoryManager.user_memories` dict, as a map from user id to
entry. -/
def MemStore : Type := Int → Option UserVideoMemory

/-- `VideoMemoryManager.save_video_info`: overwrite the user's entry with
a fresh one stamped `now`. -/
def save_video_info (now : Int) (st : MemStore) (uid : Int)
    (video_url : String) (title : Option String) (duration : Option Int)
    (video_path : Option String) (file_id : Option String) : MemStore :=
  fun u => if u = uid then
    some ⟨video_url, video_path, file_id, title, duration, now⟩
  else st u

/-- `VideoMemoryManager.get_video_memory`: return the user's entry when
fresh; when present but expired, delete it (`del self.user_memories[...]`)
and return `None`.  The returned pair is (result, updated store). -/
def get_video_memory (now : Int) (st : MemStore) (uid : Int) :
    Option UserVideoMemory × MemStore :=
  match st uid with
  | none => (none, st)
  | some m =>
    if m.is_expired now then (none, fun u => if u = uid then none else st u)
    else (some m, st)

/-- C4: an entry created more than 3600 s before `now` is reported absent
by `get_video_memory`, is physically removed from the store, and any
later `get` (at any time, with no intervening save) also reports
absent. -/
theorem C4_expired_memory_purged_permanently (st : MemStore) (uid : Int)
    (m : UserVideoMemory) (now later : Int) (hm : st uid = some m)
    (hold : 3600 < now - m.timestamp) :
    (get_video_memory now st uid).1 = none ∧
    (get_video_memory now st uid).2 uid = none ∧
    (get_video_memory later (get_video_memory now st uid).2 uid).1 = none := by
  have hexp : m.is_expired now = true := by
    unfold UserVideoMemory.is_expired
    exact decide_eq_true hold
  have hget : get_video_memory now st uid =
      (none, fun u => if u = uid then none else st u) := by
    unfold get_video_memory
    rw [hm]
    simp only [hexp, if_true]
  refine ⟨by rw [hget], by rw [hget]; simp, ?_⟩
  rw [hget]
  unfold get_video_memory
  simp

/-- A concrete memory entry created at time 0, for the C4 witness. -/
def demoMemEntry : UserVideoMemory :=
  ⟨"https://example.com/v", none, none, none, none, 0⟩

/-- A one-entry store holding `demoMemEntry` for user 7, for the C4
witness. -/
def demoMemStore : MemStore :=
  fun u => if u = 7 then some demoMemEntry else none

/-- Witness for `C4_expired_memory_purged_permanently` on a concrete
one-entry store read 4000 seconds after creation. -/
theorem C4_expired_memory_purged_permanently_witness :
    demoMemStore 7 = some demoMemEntry ∧
    (3600 : Int) < 4000 - demoMemEntry.timestamp ∧
    ((get_video_memory 4000 demoMemStore 7).1 = none ∧
     (get_video_memory 4000 demoMemStore 7).2 7 = none ∧
     (get_video_memory 5000 (get_video_memory 4000 demoMemStore 7).2 7).1 =
       none) :=
  ⟨by decide, by decide,
   C4_expired_memory_purged_permanently demoMemStore 7 demoMemEntry 4000 5000
     (by decide) (by decide)⟩

/-! ## File-size policy (src/bot.py:36-85)

`TELEGRAM_BOT_API_URL` being configured is the boolean `hasLocalApi`. -/

/-- `get_max_file_size`: 2 GB with a local Bot API server, else 50 MB. -/
def get_max_file_size (hasLocalApi : Bool) : Nat :=
  if hasLocalApi then 2 * 1024 * 1024 * 1024 else 50 * 1024 * 1024

/-- `get_recommended_max_size`: 500 MB with a local Bot API server, else
45 MB. -/
def get_recommended_max_size (hasLocalApi : Bool) : Nat :=
  if hasLocalApi then 500 * 1024 * 1024 else 45 * 1024 * 1024

/-- `check_file_size_for_telegram`: returns `(is_acceptable, message)`;
note the third, fixed `100MB` warning threshold after the two
configurable ceilings. -/
def check_file_size_for_telegram (hasLocalApi : Bool) (file_size : Nat) :
    Bool × String :=
  let max_size := get_max_file_size hasLocalApi
  let recommended_size := get_recommended_max_size hasLocalApi
  if file_size > max_size then
    (false, "❌ Видео слишком большое (" ++ toString (file_size / (1024 * 1024)) ++
      "MB).\nМаксимальный размер: " ++ toString (max_size / (1024 * 1024)) ++ "MB.")
  else if file_size > recommended_size then
    (true, "⚠️ Видео большое (" ++ toString (file_size / (1024 * 1024)) ++
      "MB).\nРекомендованный размер: " ++ toString (recommended_size / (1024 * 1024)) ++
      "MB.\nОтправка может занять время...")
  else if file_size > 100 * 1024 * 1024 then
    (true, "⚠️ Видео большое (" ++ toString (file_size / (1024 * 1024)) ++
      "MB).\nОтправка может занять время...")
  else (true, "")

/-- C5 (counterexample): with the local Bot API configured, a 200 MB file
is under both the soft (500 MB) and hard (2 GB) ceilings, yet the policy
does not proceed silently: the fixed 100 MB threshold produces a warning
message, so the policy is not a function of exactly two ceilings. -/
theorem C5_counterexample :
    200 * 1024 * 1024 ≤ get_recommended_max_size true ∧
    200 * 1024 * 1024 ≤ get_max_file_size true ∧
    (check_file_size_for_telegram true (200 * 1024 * 1024)).1 = true ∧
    (check_file_size_for_telegram true (200 * 1024 * 1024)).2 ≠ "" := by
  refine ⟨by decide, by decide, by decide, by decide⟩

/-- A string starting with a nonempty piece is nonempty. -/
lemma append_ne_empty {a : String} (b : String) (h : a.length ≠ 0) :
    (a ++ b) ≠ "" := by
  intro he
  have hl := congrArg String.length he
  rw [String.length_append] at hl
  simp only [String.length_empty] at hl
  omega

/-- C5 (amended): the policy has three outcomes governed by THREE
thresholds — reject strictly over the hard cap; warn-and-proceed when at
most the hard cap but strictly over the soft cap or strictly over the
fixed 100 MB mark; silent-proceed otherwise.  (The same
`check_file_size_for_telegram` is invoked by the full-download handler
and by both trimmed-output handlers, as modelled in
`handle_video_download`, `handle_trim_from_memory` and
`handle_video_download_trim` below.) -/
theorem C5_size_policy_three_thresholds (hasApi : Bool) (size : Nat) :
    ((check_file_size_for_telegram hasApi size).1 = false ↔
      size > get_max_file_size hasApi) ∧
    ((check_file_size_for_telegram hasApi size).1 = true ∧
        (check_file_size_for_telegram hasApi size).2 ≠ "" ↔
      size ≤ get_max_file_size hasApi ∧
        (size > get_recommended_max_size hasApi ∨ size > 100 * 1024 * 1024)) ∧
    ((check_file_size_for_telegram hasApi size).1 = true ∧
        (check_file_size_for_telegram hasApi size).2 = "" ↔
      size ≤ get_max_file_size hasApi ∧
        size ≤ get_recommended_max_size hasApi ∧ size ≤ 100 * 1024 * 1024) := by
  unfold check_file_size_for_telegram
  by_cases h1 : size > get_max_file_size hasApi
  · rw [if_pos h1]
    refine ⟨by simp [h1], by simp; omega, by simp; omega⟩
  · rw [if_neg h1]
    by_cases h2 : size > get_recommended_max_size hasApi
    · rw [if_pos h2]
      have hne : ("⚠️ Видео большое (" ++ toString (size / (1024 * 1024)) ++
          "MB).\nРекомендованный размер: " ++
          toString (get_recommended_max_size hasApi / (1024 * 1024)) ++
          "MB.\nОтправка может занять время...") ≠ "" := by
        apply append_ne_empty
        rw [String.length_append, String.length_append, String.length_append]
        have : ("⚠️ Видео большое (" : String).length ≠ 0 := by decide
        omega
      refine ⟨by simp; omega, by simp [hne]; omega, by simp [hne]; omega⟩
    · rw [if_neg h2]
      by_cases h3 : size > 100 * 1024 * 1024
      · rw [if_pos h3]
        have hne : ("⚠️ Видео большое (" ++ toString (size / (1024 * 1024)) ++
            "MB).\nОтправка может занять время...") ≠ "" := by
          apply append_ne_empty
          rw [String.length_append]
          have : ("⚠️ Видео большое (" : String).length ≠ 0 := by decide
          omega
        refine ⟨by simp; omega, by simp [hne]; omega, by simp [hne]; omega⟩
      · rw [if_neg h3]
        refine ⟨by simp; omega, by simp; omega, by simp; omega⟩

/-! ## `LLMHandler` (src/llm_handler.py)

The JSON dict the handler passes around is modelled as an association
list of JSON values; the Mistral call's outcome is an explicit
parameter. -/

/-- A JSON value as far as this program inspects one. -/
inductive JVal
  | jnull
  | jbool (b : Bool)
  | jnum (q : ℚ)
  | jstr (s : String)
  deriving DecidableEq

/-- A parsed JSON object (Python dict). -/
def JDict : Type := List (String × JVal)

/-- `isinstance(x, (int, float))` — a Python `bool` IS an `int`, so
`jbool` passes too. -/
def jIsNum : JVal → Bool
  | .jnum _ => true
  | .jbool _ => true
  | _ => false

/-- `isinstance(x, bool)`. -/
def jIsBool : JVal → Bool
  | .jbool _ => true
  | _ => false

/-- The `required_fields` list of `_validate_result`. -/
def required_fields : List String :=
  ["action", "video_url", "start_time", "end_time", "use_last_video",
   "confidence"]

/-- `LLMHandler._validate_result`: all six fields present, `action` one
of the three known strings, `confidence` numeric, `use_last_video`
boolean. -/
def validate_result (d : JDict) : Bool :=
  required_fields.all (fun f => (List.lookup f d).isSome) &&
  (match List.lookup "action" d with
   | some (.jstr a) => decide (a ∈ ["download", "trim", "download_and_trim"])
   | _ => false) &&
  (match List.lookup "confidence" d with
   | some v => jIsNum v
   | none => false) &&
  (match List.lookup "use_last_video" d with
   | some v => jIsBool v
   | none => false)

/-- Match the regex `https?://[^\s]+` at the current position and return
the full matched token.  (If the character after `http` is `s` but is
not followed by `://`, the backtracking alternative without `s` also
requires `://` to start at that `s` and fails as well, so the
deterministic greedy reading agrees with `re`.) -/
def matchUrlAt (cs : List Char) : Option (List Char) :=
  (eatLit "http".toList cs).bind fun r1 =>
    let hasS := r1.head? = some 's'
    let r2 := if hasS then r1.tail else r1
    (eatLit "://".toList r2).bind fun r3 =>
      let body := r3.takeWhile (fun c => !c.isWhitespace)
      if body = [] then none
      else some ("http".toList ++ (if hasS then ['s'] else []) ++
        "://".toList ++ body)

/-- First match of `re.findall(r"https?://[^\s]+", text)` (bare `urls[0]`
of the fallback); `none` when `findall` returns the empty list. -/
def findFirstUrl (text : String) : Option String :=
  (searchP matchUrlAt text.toList).map fun l => ⟨l⟩

/-- Python `needle in hay` on character lists. -/
def hasSub (n : List Char) : List Char → Bool
  | [] => n.isEmpty
  | c :: t => n.isPrefixOf (c :: t) || hasSub n t

/-- The fallback's `trim_keywords` list (llm_handler.py:191). -/
def trim_keywords : List String :=
  ["обрежь", "обрезать", "с ", "от ", "по ", "до "]

/-- The fallback's `last_video_keywords` list (llm_handler.py:204-211). -/
def last_video_keywords : List String :=
  ["это", "это видео", "последнее", "последнее видео", "предыдущее",
   "предыдущее видео"]

/-- `any(keyword in text.lower() for keyword in ks)`. -/
def containsKeyword (ks : List String) (text : String) : Bool :=
  ks.any fun k => hasSub k.toList (text.toList.map pyLowerChar)

/-- The fallback's action table: a pure function of URL presence and
trim-keyword presence only. -/
def fallbackAction (hasUrlFlag hasTrimFlag : Bool) : String :=
  if hasUrlFlag && hasTrimFlag then "download_and_trim"
  else if hasUrlFlag then "download"
  else if hasTrimFlag then "trim"
  else "unknown"

/-- `LLMHandler._create_fallback_result` (llm_handler.py:171-223). -/
def create_fallback_result (text : String) : JDict :=
  let url? := findFirstUrl text
  let has_trim := containsKeyword trim_keywords text
  let has_last := containsKeyword last_video_keywords text
  [("action", .jstr (fallbackAction url?.isSome has_trim)),
   ("video_url", match url? with | some u => .jstr u | none => .jnull),
   ("start_time", .jnull),
   ("end_time", .jnull),
   ("use_last_video", .jbool has_last),
   ("confidence", .jnum (3/10))]

/-- Outcome of the Mistral chat call plus response handling inside
`process_request`'s `try`.  `raisesError` covers every exception from
`client.chat`, including the rate-limit (HTTP 429) exceptions the
`mistralai` client raises; `invalidJson` is `json.JSONDecodeError`. -/
inductive ModelOutcome
  | raisesError
  | invalidJson
  | parsed (d : JDict)

/-- `LLMHandler.process_request` (llm_handler.py:69-135): return the
validated parsed dict, otherwise the fallback; every exception path
also returns the fallback. -/
def process_request (text : String) (o : ModelOutcome) : JDict :=
  match o with
  | .raisesError => create_fallback_result text
  | .invalidJson => create_fallback_result text
  | .parsed d => if validate_result d then d else create_fallback_result text

/-- The model-call outcomes that the spec calls failures. -/
def failureOutcome : ModelOutcome → Prop
  | .raisesError => True
  | .invalidJson => True
  | .parsed d => validate_result d = false

/-- The fallback action is one of the four heuristic kinds and never
`"rate_limit"`. -/
lemma fallbackAction_ne_rate_limit (u t : Bool) :
    fallbackAction u t ≠ "rate_limit" := by
  cases u <;> cases t <;> decide

/-- C3: when the model call raises — which is how the Mistral client
reports a rate limit — `process_request` returns the heuristic fallback
dict, whose `action` is never `"rate_limit"`; the dispatcher's
`action == "rate_limit"` branch (bot.py:315) is therefore unreachable,
and a rate-limited request is answered with a heuristic guess of
confidence 0.3 instead of the distinct retry-later action. -/
theorem C3_rate_limit_never_surfaced (text : String) :
    process_request text ModelOutcome.raisesError =
      create_fallback_result text ∧
    List.lookup "action" (process_request text ModelOutcome.raisesError) =
      some (JVal.jstr (fallbackAction (findFirstUrl text).isSome
        (containsKeyword trim_keywords text))) ∧
    fallbackAction (findFirstUrl text).isSome
      (containsKeyword trim_keywords text) ≠ "rate_limit" := by
  refine ⟨rfl, ?_, fallbackAction_ne_rate_limit _ _⟩
  simp [process_request, create_fallback_result, List.lookup]

/-- C9: on every model-call failure (exception, malformed JSON, or
schema violation) the classifier returns exactly the heuristic fallback
dict: `confidence` is exactly 3/10 (inside [0, 1]), `action` is the
pure table `fallbackAction` of URL-regex presence and trim-keyword
presence alone, and `use_last_video` is last-video keyword presence. -/
theorem C9_fallback_result_on_failure (text : String) (o : ModelOutcome)
    (h : failureOutcome o) :
    process_request text o = create_fallback_result text ∧
    List.lookup "confidence" (create_fallback_result text) =
      some (JVal.jnum (3/10)) ∧
    ((0 : ℚ) ≤ 3/10 ∧ (3/10 : ℚ) ≤ 1) ∧
    List.lookup "action" (create_fallback_result text) =
      some (JVal.jstr (fallbackAction (findFirstUrl text).isSome
        (containsKeyword trim_keywords text))) ∧
    List.lookup "use_last_video" (create_fallback_result text) =
      some (JVal.jbool (containsKeyword last_video_keywords text)) := by
  refine ⟨?_, ?_, ⟨by norm_num, by norm_num⟩, ?_, ?_⟩
  · cases o with
    | raisesError => rfl
    | invalidJson => rfl
    | parsed d =>
      unfold failureOutcome at h
      simp [process_request, h]
  · simp [create_fallback_result, List.lookup]
  · simp [create_fallback_result, List.lookup]
  · simp [create_fallback_result, List.lookup]

/-- Witness for `C9_fallback_result_on_failure` on a malformed-JSON
outcome for a trim-style text. -/
theorem C9_fallback_result_on_failure_witness :
    failureOutcome ModelOutcome.invalidJson ∧
    (process_request "обрежь это видео с 10 по 20" ModelOutcome.invalidJson =
        create_fallback_result "обрежь это видео с 10 по 20" ∧
      List.lookup "confidence"
          (create_fallback_result "обрежь это видео с 10 по 20") =
        some (JVal.jnum (3/10)) ∧
      ((0 : ℚ) ≤ 3/10 ∧ (3/10 : ℚ) ≤ 1) ∧
      List.lookup "action"
          (create_fallback_result "обрежь это видео с 10 по 20") =
        some (JVal.jstr (fallbackAction
          (findFirstUrl "обрежь это видео с 10 по 20").isSome
          (containsKeyword trim_keywords "обрежь это видео с 10 по 20"))) ∧
      List.lookup "use_last_video"
          (create_fallback_result "обрежь это видео с 10 по 20") =
        some (JVal.jbool (containsKeyword last_video_keywords
          "обрежь это видео с 10 по 20"))) :=
  ⟨trivial,
   C9_fallback_result_on_failure "обрежь это видео с 10 по 20"
     ModelOutcome.invalidJson trivial⟩

example : containsKeyword trim_keywords "обрежь это видео с 10 по 20" = true := by
  decide
example : fallbackAction false true = "trim" := by decide
example : (findFirstUrl "скачай https://youtu.be/x сейчас") =
    some "https://youtu.be/x" := by decide
example : findFirstUrl "привет как дела" = none := by decide

/-! ## `VideoSourceHandler` (src/video_source_handler.py)

Stages 2-4 are network/browser interactions; their outcomes are abstract
parameters.  Stage 1's internal success criterion is modelled because
claim C2 depends on its return value. -/

/-- Outcome of the throwaway stage-1 test download
(`_stage1_direct_yt_dlp`, video_source_handler.py:113-188). -/
structure Stage1Outcome where
  /-- `prepare_filename(info)`; `none` when yt-dlp raised inside
  `test_download`. -/
  filename : Option String
  /-- `Path(filename).exists()` — the test file materialized on disk. -/
  fileOnDisk : Bool
  /-- `Path(filename).stat().st_size > 0`. -/
  fileNonEmpty : Bool

/-- `_stage1_direct_yt_dlp`: succeed only when a nonempty-named file
actually materialized with positive size; on success the ORIGINAL input
`url` is returned (the test artifact is deleted), else `(None, "")`.
The outer `if result and Path(result).exists()` re-checks the same file
and is folded into `fileOnDisk`. -/
def stage1_direct_yt_dlp (url : String) (o : Stage1Outcome) :
    Option String × String :=
  match o.filename with
  | none => (none, "")
  | some f =>
    if f ≠ "" ∧ o.fileOnDisk = true then
      if o.fileNonEmpty then (some url, "прямое скачивание через yt-dlp")
      else (none, "")
    else (none, "")

/-- The four stages, tagged in the order `extract_video_url` runs them
(the method NAMED `_stage3_playwright_search` runs second and the method
named `_stage2_llm_find_video` runs third, per the `# moved up` /
`# moved down` comments). -/
inductive StageTag
  | stage1
  | stage2_playwright
  | stage3_llm_find
  | stage4_codegen
  deriving DecidableEq

/-- Abstract outcomes of the three page-level stages (browser session,
HTTP fetch + model calls): what each would return if invoked. -/
structure ResolveEnv where
  playwright_result : Option String × String
  llm_find_result : Option String × String
  codegen_result : Option String × String

/-- `VideoSourceHandler.extract_video_url`
(video_source_handler.py:33-111): run the stages strictly in order,
returning the first success together with the list of stages actually
invoked. -/
def extract_video_url (url : String) (o1 : Stage1Outcome)
    (env : ResolveEnv) : (Option String × String) × List StageTag :=
  match stage1_direct_yt_dlp url o1 with
  | (some v, m) => ((some v, m), [.stage1])
  | (none, _) =>
    match env.playwright_result with
    | (some v, m) => ((some v, m), [.stage1, .stage2_playwright])
    | (none, _) =>
      match env.llm_find_result with
      | (some v, m) =>
        ((some v, m), [.stage1, .stage2_playwright, .stage3_llm_find])
      | (none, _) =>
        match env.codegen_result with
        | (some v, m) =>
          ((some v, m),
           [.stage1, .stage2_playwright, .stage3_llm_find, .stage4_codegen])
        | (none, _) =>
          ((none,
            "Не удалось найти видео на данной странице. Попробуйте другую ссылку."),
           [.stage1, .stage2_playwright, .stage3_llm_find, .stage4_codegen])

/-- A successful stage 1 returns exactly the original input URL with its
fixed method string. -/
lemma stage1_success_returns_input (url : String) (o : Stage1Outcome)
    (h : (stage1_direct_yt_dlp url o).1.isSome = true) :
    stage1_direct_yt_dlp url o =
      (some url, "прямое скачивание через yt-dlp") := by
  unfold stage1_direct_yt_dlp at h ⊢
  rcases o with ⟨fn, onDisk, nonEmpty⟩
  cases fn with
  | none => exact absurd h (by simp)
  | some f =>
    simp only at h ⊢
    by_cases h1 : f ≠ "" ∧ onDisk = true
    · rw [if_pos h1] at h ⊢
      cases nonEmpty with
      | false => exact absurd h (by simp)
      | true => simp
    · rw [if_neg h1] at h
      exact absurd h (by simp)

/-- C2: whenever stage 1 (direct test-download) succeeds, the resolver
invokes no further stage and returns the original input URL as the
resolved URL. -/
theorem C2_stage1_short_circuits (url : String) (o1 : Stage1Outcome)
    (env : ResolveEnv) (h : (stage1_direct_yt_dlp url o1).1.isSome = true) :
    (extract_video_url url o1 env).2 = [StageTag.stage1] ∧
    (extract_video_url url o1 env).1.1 = some url := by
  unfold extract_video_url
  rw [stage1_success_returns_input url o1 h]
  exact ⟨rfl, rfl⟩

/-- Witness for `C2_stage1_short_circuits` on a concrete successful
test download. -/
theorem C2_stage1_short_circuits_witness :
    (stage1_direct_yt_dlp "https://example.com/page"
      ⟨some "clip.mp4", true, true⟩).1.isSome = true ∧
    ((extract_video_url "https://example.com/page"
        ⟨some "clip.mp4", true, true⟩
        ⟨(none, ""), (none, ""), (none, "")⟩).2 = [StageTag.stage1] ∧
     (extract_video_url "https://example.com/page"
        ⟨some "clip.mp4", true, true⟩
        ⟨(none, ""), (none, ""), (none, "")⟩).1.1 =
       some "https://example.com/page") :=
  ⟨by decide,
   C2_stage1_short_circuits "https://example.com/page"
     ⟨some "clip.mp4", true, true⟩ ⟨(none, ""), (none, ""), (none, "")⟩
     (by decide)⟩

/-! ## Dispatcher: confidence gate (src/bot.py:287-341)

The part of `handle_llm_request` after `llm_result` is obtained, as a
function of the fields it reads from the classifier's dict. -/

/-- The classifier dict fields `handle_llm_request` reads
(`llm_result["action"]`, `["confidence"]`, `.get("use_last_video",
False)`, plus the fields the action handlers read). -/
structure LLMRes where
  action : String
  video_url : Option String
  start_time : Option Int
  end_time : Option Int
  use_last_video : Bool
  confidence : ℚ
  deriving DecidableEq

/-- The dispatch decision `handle_llm_request` reaches for a classified
result: a terminal reply, or entry into one of the three action
handlers. -/
inductive Dispatch
  | rateLimitReply
  | lowConfidenceReply
  | doDownload (url : Option String)
  | doTrimOnly (useLast : Bool)
  | doDownloadTrim (url : Option String) (s e : Option Int)
  | unknownReply
  deriving DecidableEq

/-- Post-classification dispatch of `handle_llm_request`
(src/bot.py:310-341): rate-limit check first, then the `< 0.5`
confidence gate, then the per-action branches. -/
def handle_llm_request_classified (r : LLMRes) : Dispatch :=
  if r.action = "rate_limit" then .rateLimitReply
  else if r.confidence < 1/2 then .lowConfidenceReply
  else if r.action = "download" then .doDownload r.video_url
  else if r.action = "trim" then .doTrimOnly r.use_last_video
  else if r.action = "download_and_trim" then
    .doDownloadTrim r.video_url r.start_time r.end_time
  else .unknownReply

/-- Decisions that invoke the resolver/download/trim pipeline. -/
def invokesPipeline : Dispatch → Bool
  | .doDownload _ => true
  | .doTrimOnly _ => true
  | .doDownloadTrim _ _ _ => true
  | _ => false

/-- C8: a classified action that is not rate-limited and has confidence
below 0.5 is answered with the low-confidence reply and never enters
any resolver/download/trim handler. -/
theorem C8_low_confidence_short_circuits (r : LLMRes)
    (hne : r.action ≠ "rate_limit") (hconf : r.confidence < 1/2) :
    handle_llm_request_classified r = .lowConfidenceReply ∧
    invokesPipeline (handle_llm_request_classified r) = false := by
  unfold handle_llm_request_classified
  rw [if_neg hne, if_pos hconf]
  exact ⟨rfl, rfl⟩

/-- Witness for `C8_low_confidence_short_circuits` on a
confidence-0.3 download action. -/
theorem C8_low_confidence_short_circuits_witness :
    ("download" : String) ≠ "rate_limit" ∧ (3/10 : ℚ) < 1/2 ∧
    (handle_llm_request_classified
        ⟨"download", some "https://example.com/v", none, none, false, 3/10⟩ =
      Dispatch.lowConfidenceReply ∧
     invokesPipeline (handle_llm_request_classified
        ⟨"download", some "https://example.com/v", none, none, false, 3/10⟩) =
      false) :=
  ⟨by decide, by norm_num,
   C8_low_confidence_short_circuits
     ⟨"download", some "https://example.com/v", none, none, false, 3/10⟩
     (by decide) (by norm_num)⟩

/-! ## Dispatcher: delivery handlers and the memory frame effect
(src/bot.py:412-498, 520-640, 643-735)

Each handler is modelled as a function from the outcomes of its external
calls to its externally visible effects on user memory and delivery.
Status-message edits and file cleanup do not touch memory and are not
tracked. -/

/-- The memory/delivery effects of one handler run.  `memorySaved` is
the `save_video_info` call (user id, url) if one happened. -/
structure HandlerEffects where
  memorySaved : Option (Int × String)
  videoDelivered : Bool
  deriving DecidableEq

/-- External outcomes of `handle_video_download`'s calls. -/
structure DownloadRunOutcome where
  /-- `download_video` returned a path and `Path(video_path).exists()`. -/
  downloadOk : Bool
  /-- `Path(video_path).stat().st_size`. -/
  fileSize : Nat
  /-- `reply_video` and the following `status_message.delete()` did not
  raise. -/
  sendOk : Bool
  /-- `sent_message.video` — `some file_id` when Telegram's returned
  message carries a video attachment, `none` when it does not (e.g. the
  file was delivered as a document). -/
  sentVideo : Option String

/-- `handle_video_download` (src/bot.py:520-640): download, size-gate,
send; memory is saved only under `if sent_message.video:`
(src/bot.py:595). -/
def handle_video_download (hasLocalApi : Bool) (uid : Int)
    (video_url : String) (o : DownloadRunOutcome) : HandlerEffects :=
  if o.downloadOk then
    if (check_file_size_for_telegram hasLocalApi o.fileSize).1 then
      if o.sendOk then
        match o.sentVideo with
        | some _ => ⟨some (uid, video_url), true⟩
        | none => ⟨none, true⟩
      else ⟨none, false⟩
    else ⟨none, false⟩
  else ⟨none, false⟩

/-- External outcomes of a download-then-trim flow. -/
structure TrimRunOutcome where
  /-- `extract_time_range` result (trim-from-memory only; the
  download-and-trim handler receives its range as arguments). -/
  timeRange : Option (Int × Int)
  /-- `download_video` returned an existing path. -/
  downloadOk : Bool
  /-- `trim_video` returned an existing path. -/
  trimOk : Bool
  /-- size of the trimmed file. -/
  fileSize : Nat
  /-- `reply_video` did not raise. -/
  sendOk : Bool

/-- `handle_trim_from_memory` (src/bot.py:412-498): extract the range,
re-download the REMEMBERED URL (`user_memory.video_url`), trim,
size-gate, send.  The function body contains no `save_video_info`
call. -/
def handle_trim_from_memory (hasLocalApi : Bool) (uid : Int)
    (mem : UserVideoMemory) (o : TrimRunOutcome) : HandlerEffects :=
  match o.timeRange with
  | none => ⟨none, false⟩
  | some _ =>
    if o.downloadOk then
      if o.trimOk then
        if (check_file_size_for_telegram hasLocalApi o.fileSize).1 then
          if o.sendOk then ⟨none, true⟩ else ⟨none, false⟩
        else ⟨none, false⟩
      else ⟨none, false⟩
    else ⟨none, false⟩

/-- `handle_video_download_trim` (src/bot.py:643-735): download, trim,
size-gate, send.  The function body contains no `save_video_info`
call. -/
def handle_video_download_trim (hasLocalApi : Bool) (uid : Int)
    (video_url : String) (start_time end_time : Int) (o : TrimRunOutcome) :
    HandlerEffects :=
  if o.downloadOk then
    if o.trimOk then
      if (check_file_size_for_telegram hasLocalApi o.fileSize).1 then
        if o.sendOk then ⟨none, true⟩ else ⟨none, false⟩
      else ⟨none, false⟩
    else ⟨none, false⟩
  else ⟨none, false⟩

/-- C7 (counterexample): a full download that is successfully delivered
but whose returned Telegram message has no `video` attachment
(`sent_message.video` falsy) does NOT write a memory entry — the save
sits under `if sent_message.video:` — refuting "for every successfully
delivered full download the dispatcher writes a new entry". -/
theorem C7_counterexample :
    (handle_video_download false 7 "https://example.com/v"
      ⟨true, 1000, true, none⟩).videoDelivered = true ∧
    (handle_video_download false 7 "https://example.com/v"
      ⟨true, 1000, true, none⟩).memorySaved = none := by
  decide

/-- C7 (amended): a delivered full download whose returned message
carries a video attachment writes the user's memory entry with the
original URL, and neither trimmed-delivery handler ever writes memory,
for any outcome of their external calls. -/
theorem C7_memory_only_full_downloads (hasApi : Bool) (uid : Int)
    (url : String) (o : DownloadRunOutcome)
    (hdeliv : (handle_video_download hasApi uid url o).videoDelivered = true)
    (hvid : o.sentVideo.isSome = true) :
    (handle_video_download hasApi uid url o).memorySaved = some (uid, url) ∧
    (∀ (mem : UserVideoMemory) (o' : TrimRunOutcome),
      (handle_trim_from_memory hasApi uid mem o').memorySaved = none) ∧
    (∀ (u : String) (s e : Int) (o' : TrimRunOutcome),
      (handle_video_download_trim hasApi uid u s e o').memorySaved = none) := by
  refine ⟨?_, ?_, ?_⟩
  · unfold handle_video_download at hdeliv ⊢
    rcases o with ⟨dOk, fs, sOk, sv⟩
    cases dOk with
    | false => simp at hdeliv
    | true =>
      simp only [if_true] at hdeliv ⊢
      by_cases hsz : (check_file_size_for_telegram hasApi fs).1 = true
      · simp only [hsz, if_true] at hdeliv ⊢
        cases sOk with
        | false => simp at hdeliv
        | true =>
          simp only [if_true] at hdeliv ⊢
          cases sv with
          | none => simp at hvid
          | some fid => rfl
      · simp only [Bool.not_eq_true] at hsz
        simp [hsz] at hdeliv
  · intro mem o'
    unfold handle_trim_from_memory
    rcases o' with ⟨tr, dOk, tOk, fs, sOk⟩
    cases tr <;> cases dOk <;> cases tOk <;> cases sOk <;>
      simp <;> split <;> rfl
  · intro u s e o'
    unfold handle_video_download_trim
    rcases o' with ⟨tr, dOk, tOk, fs, sOk⟩
    cases dOk <;> cases tOk <;> cases sOk <;>
      simp <;> split <;> rfl

/-- Witness for `C7_memory_only_full_downloads` on a delivered download
whose returned message has a video attachment. -/
theorem C7_memory_only_full_downloads_witness :
    (handle_video_download false 7 "https://example.com/v"
      ⟨true, 1000, true, some "fid1"⟩).videoDelivered = true ∧
    (some "fid1" : Option String).isSome = true ∧
    (handle_video_download false 7 "https://example.com/v"
      ⟨true, 1000, true, some "fid1"⟩).memorySaved =
        some (7, "https://example.com/v") :=
  ⟨by decide, by decide,
   (C7_memory_only_full_downloads false 7 "https://example.com/v"
     ⟨true, 1000, true, some "fid1"⟩ (by decide) (by decide)).1⟩

/-! ## `VideoProcessor.trim_video` (src/video_processor.py:572-660) -/

/-- Outcome of the ffmpeg subprocess run inside `trim_video`'s `try`. -/
structure TrimExecOutcome where
  /-- some step inside the `try` raised an exception. -/
  raises : Bool
  /-- `result.returncode` of the ffmpeg run. -/
  returncode : Int
  /-- `output_path.exists()` after the run. -/
  outputExists : Bool
  /-- `output_path.stat().st_size`. -/
  outputSize : Nat

/-- `trim_video`: reject `start_time >= end_time` and a missing input
synchronously (before any output is created); run ffmpeg; success
requires exit code 0 AND an existing output of positive size.  Only the
`except` branch deletes a leftover `output_path` (the inner unlink is
modelled as succeeding).  The second component records whether the
output file still exists on disk when the function returns. -/
def trim_video (inputExists : Bool) (start_time end_time : Int)
    (output_path : String) (o : TrimExecOutcome) : Option String × Bool :=
  if start_time ≥ end_time then (none, false)
  else if inputExists = false then (none, false)
  else if o.raises then (none, false)
  else if o.returncode = 0 then
    if o.outputExists = true ∧ o.outputSize > 0 then (some output_path, true)
    else (none, o.outputExists)
  else (none, o.outputExists)

/-- C6 (counterexample): ffmpeg exits non-zero leaving a 500-byte
partial output; `trim_video` returns absent but the partial file is NOT
deleted (the non-zero-exit branch returns `None` with no cleanup,
video_processor.py:647-650). -/
theorem C6_counterexample :
    (trim_video true 0 10 "trimmed_ab12cd34.mp4" ⟨false, 1, true, 500⟩).1 =
      none ∧
    (trim_video true 0 10 "trimmed_ab12cd34.mp4" ⟨false, 1, true, 500⟩).2 =
      true := by
  decide

/-- C6 (amended): the partial output is deleted before returning absent
only when the failure is a raised exception; success demands exit code
0 and a non-zero-length output; on a non-exception failure the output
file (when ffmpeg created one, zero-length included) is left on
disk. -/
theorem C6_partial_cleanup_on_exception_only (inputExists : Bool)
    (s e : Int) (p : String) (o : TrimExecOutcome) :
    (o.raises = true → (trim_video inputExists s e p o).2 = false) ∧
    ((trim_video inputExists s e p o).1.isSome = true →
      o.returncode = 0 ∧ o.outputExists = true ∧ o.outputSize > 0) ∧
    (o.raises = false → s < e → inputExists = true →
      (trim_video inputExists s e p o).1 = none →
      (trim_video inputExists s e p o).2 = o.outputExists) := by
  unfold trim_video
  by_cases h1 : s ≥ e
  · refine ⟨fun _ => by simp [h1], fun hs => absurd hs (by simp [h1]), ?_⟩
    intro _ hlt
    omega
  · rw [if_neg h1]
    cases inputExists with
    | false =>
      refine ⟨fun _ => by simp, fun hs => absurd hs (by simp), ?_⟩
      intro _ _ hcontra
      exact absurd hcontra (by simp)
    | true =>
      simp only [if_neg (by simp : ¬(true = false))]
      cases hr : o.raises with
      | true =>
        refine ⟨fun _ => by simp, fun hs => absurd hs (by simp), ?_⟩
        intro hfalse
        exact absurd hfalse (by simp)
      | false =>
        simp only [if_neg (by simp : ¬(false = true))]
        by_cases h0 : o.returncode = 0
        · rw [if_pos h0]
          by_cases hgood : o.outputExists = true ∧ o.outputSize > 0
          · rw [if_pos hgood]
            exact ⟨fun hc => by simp at hc, fun _ => ⟨h0, hgood.1, hgood.2⟩,
              fun _ _ _ hc => by simp at hc⟩
          · rw [if_neg hgood]
            exact ⟨fun hc => by simp at hc, fun hs => by simp at hs,
              fun _ _ _ _ => rfl⟩
        · rw [if_neg h0]
          exact ⟨fun hc => by simp at hc, fun hs => by simp at hs,
            fun _ _ _ _ => rfl⟩

/-- Witness for `C6_partial_cleanup_on_exception_only`: cleanup on an
exception with a partial file present, success facts on a good run, and
the leftover file on a non-zero exit. -/
theorem C6_partial_cleanup_on_exception_only_witness :
    (trim_video true 0 10 "t1.mp4" ⟨true, 0, true, 0⟩).2 = false ∧
    ((0 : Int) = 0 ∧ true = true ∧ (9 : Nat) > 0) ∧
    (trim_video true 0 10 "t3.mp4" ⟨false, 1, true, 500⟩).2 =
      (⟨false, 1, true, 500⟩ : TrimExecOutcome).outputExists :=
  ⟨(C6_partial_cleanup_on_exception_only true 0 10 "t1.mp4"
      ⟨true, 0, true, 0⟩).1 rfl,
   (C6_partial_cleanup_on_exception_only true 0 10 "t2.mp4"
      ⟨false, 0, true, 9⟩).2.1 (by decide),
   (C6_partial_cleanup_on_exception_only true 0 10 "t3.mp4"
      ⟨false, 1, true, 500⟩).2.2 rfl (by decide) rfl (by decide)⟩

end Neurodlb
